import Mathlib

/-!
Shallow embedding of `src/neo4j-taxii.py` (TAXII-Neo4j-Synchronizer):
STIX records are Python dicts with JSON-like values; the handler
`Neo4jHandler.load_stix_object` turns each record into Neo4j MERGE
statements (node upsert, REFERENCES edges for reports, typed relationship
edges for relationship records), and `fetch_stix_objects` walks the TAXII
pagination protocol.  The graph store is modelled as an explicit state
(`Graph`), a Neo4j write transaction as a function `Graph → Graph` (or
`Except String Graph` where the statement can raise), and each
`session.execute_write` call in the Python source as one separate store
transaction, which is what the neo4j driver does.
-/

set_option maxHeartbeats 1000000

namespace TaxiiNeo4j

/-- JSON-like value carried in a STIX record (Python dict values).
Scalar values are strings, integers and booleans (the source's
`isinstance(v, (str, int, float, bool))` filter; floats are number
scalars and are represented by `int` here, no claim depends on float
arithmetic).  `list` models JSON arrays such as `object_refs`. -/
inductive JValue where
  | str (s : String)
  | int (n : Int)
  | bool (b : Bool)
  | list (xs : List JValue)

mutual
/-- Structural boolean equality on JSON-like values (defined mutually
with equality on value lists so that it reduces by iota). -/
def JValue.beq : JValue → JValue → Bool
  | .str a, .str b => a == b
  | .int a, .int b => a == b
  | .bool a, .bool b => a == b
  | .list xs, .list ys => JValue.beqList xs ys
  | _, _ => false
def JValue.beqList : List JValue → List JValue → Bool
  | [], [] => true
  | x :: xs, y :: ys => JValue.beq x y && JValue.beqList xs ys
  | _, _ => false
end

mutual
theorem JValue.beq_iff : ∀ a b : JValue, JValue.beq a b = true ↔ a = b
  | .str _, .str _ => by simp [JValue.beq]
  | .str _, .int _ => by simp [JValue.beq]
  | .str _, .bool _ => by simp [JValue.beq]
  | .str _, .list _ => by simp [JValue.beq]
  | .int _, .str _ => by simp [JValue.beq]
  | .int _, .int _ => by simp [JValue.beq]
  | .int _, .bool _ => by simp [JValue.beq]
  | .int _, .list _ => by simp [JValue.beq]
  | .bool _, .str _ => by simp [JValue.beq]
  | .bool _, .int _ => by simp [JValue.beq]
  | .bool a, .bool b => by cases a <;> cases b <;> simp [JValue.beq]
  | .bool _, .list _ => by simp [JValue.beq]
  | .list _, .str _ => by simp [JValue.beq]
  | .list _, .int _ => by simp [JValue.beq]
  | .list _, .bool _ => by simp [JValue.beq]
  | .list xs, .list ys => by
      have ih := JValue.beqList_iff xs ys
      simp only [JValue.beq, ih, JValue.list.injEq]
theorem JValue.beqList_iff : ∀ xs ys : List JValue, JValue.beqList xs ys = true ↔ xs = ys
  | [], [] => by simp [JValue.beqList]
  | [], _ :: _ => by simp [JValue.beqList]
  | _ :: _, [] => by simp [JValue.beqList]
  | x :: xs, y :: ys => by
      have ih1 := JValue.beq_iff x y
      have ih2 := JValue.beqList_iff xs ys
      simp only [JValue.beqList, Bool.and_eq_true, ih1, ih2, List.cons.injEq]
end

instance : DecidableEq JValue := fun a b =>
  decidable_of_iff _ (JValue.beq_iff a b)

/-- A STIX record: a Python dict, keys unique, insertion-ordered. -/
abbrev Record := List (String × JValue)

/-- Python `obj.get(k)` / `obj[k]`: value at key `k`, if present. -/
def lookupDict (obj : Record) (k : String) : Option JValue :=
  (obj.find? (fun p => p.1 == k)).map (·.2)

/-- Python `k in obj`. -/
def hasKey (obj : Record) (k : String) : Bool :=
  (lookupDict obj k).isSome

/-- Python `isinstance(v, (str, int, float, bool))`. -/
def isScalar : JValue → Bool
  | .str _ => true
  | .int _ => true
  | .bool _ => true
  | .list _ => false

/-- Python `str.upper()` (character-wise, as for the ASCII type names the
source feeds it). -/
def pyUpper (s : String) : String := String.mk (s.data.map Char.toUpper)

/-- Python truthiness of a JSON-like value. -/
def truthy : JValue → Bool
  | .str s => s ≠ ""
  | .int n => n ≠ 0
  | .bool b => b
  | .list xs => ¬ xs.isEmpty

/-- Python `for x in v`: iterating a list yields its elements, iterating a
string yields its one-character substrings, anything else raises
`TypeError` (propagating to the enclosing `try`). -/
def toIterList : JValue → Except String (List JValue)
  | .list xs => .ok xs
  | .str s => .ok (s.data.map (fun c => .str (String.mk [c])))
  | _ => .error "TypeError: not iterable"

/-- A Neo4j property container (property maps are unordered key-value
maps, so they are modelled extensionally). -/
def Props := String → Option JValue

/-- The empty property map. -/
def emptyProps : Props := fun _ => none

/-- Neo4j `SET x += $props`: right-hand values win, keys absent on the
right are untouched. -/
def overrideProps (p q : Props) : Props :=
  fun k => match q k with
  | some v => some v
  | none => p k

/-- The scalar-only property subset of a record:
`{k: v for k, v in obj.items() if isinstance(v, (str, int, float, bool))}`,
viewed as a property map. -/
def scalarProps (obj : Record) : Props :=
  fun k => match lookupDict obj k with
  | some v => if isScalar v then some v else none
  | none => none

/-- A vertex's MERGE key: its (sanitized) label together with its `id`
property, which is exactly what `MERGE (n:Label { id: $id })` matches on
and what `MATCH (x {id: $xid})` selects by (ignoring the label). -/
structure NodeKey where
  label : String
  id : JValue
deriving DecidableEq

/-- A Neo4j relationship: endpoints (as node keys), relationship type and
property map. -/
structure Edge where
  src : NodeKey
  tgt : NodeKey
  typ : String
  props : Props

/-- The property-graph state owned by the store. -/
structure Graph where
  nodes : List (NodeKey × Props)
  edges : List Edge

/-- The empty database. -/
def emptyGraph : Graph := ⟨[], []⟩

/-- Label sanitization in `_create_node`:
`obj.get("type", "STIXObject").replace('-', '_')`. -/
def sanitizeLabel (s : String) : String :=
  String.mk (s.data.map (fun c => if c = '-' then '_' else c))

/-- Relationship-type sanitization in `_create_relationship` and
`_create_stix_relationship`:
`rel_type.replace('-', '_').replace(' ', '_')`. -/
def sanitizeRelType (s : String) : String :=
  String.mk ((s.data.map (fun c => if c = '-' then '_' else c)).map
    (fun c => if c = ' ' then '_' else c))

/-- The node label used by `_create_node`:
`obj.get("type", "STIXObject").replace('-', '_')` — `"STIXObject"` only
when the `type` key is absent; `.replace` on a non-string value raises
`AttributeError`. -/
def nodeLabel (obj : Record) : Except String String :=
  match lookupDict obj "type" with
  | none => .ok (sanitizeLabel "STIXObject")
  | some (.str s) => .ok (sanitizeLabel s)
  | some _ => .error "AttributeError: replace"

/-- `MERGE (n:lbl { id: $id }) SET n += $props` on the node table: update
every node whose key matches, or create one whose properties start from
the MERGE pattern (`{id: idv}`) and then receive `props`. -/
def mergeNodeList (ns : List (NodeKey × Props)) (key : NodeKey) (idv : JValue)
    (props : Props) : List (NodeKey × Props) :=
  if ns.any (fun n => n.1 == key) then
    ns.map (fun n => if n.1 == key then (n.1, overrideProps n.2 props) else n)
  else
    ns ++ [(key, overrideProps (fun k => if k = "id" then some idv else none) props)]

/-- The node-upsert statement applied to the graph state. -/
def mergeNode (g : Graph) (key : NodeKey) (idv : JValue) (props : Props) : Graph :=
  Graph.mk (mergeNodeList g.nodes key idv props) g.edges

/-- `Neo4jHandler._create_node` as one write transaction: compute the
label (possibly raising), read `obj["id"]` (raising `KeyError` when
absent), then run the MERGE/SET statement. -/
def createNode (g : Graph) (obj : Record) : Except String Graph :=
  match nodeLabel obj with
  | .error e => .error e
  | .ok lbl =>
    match lookupDict obj "id" with
    | none => .error "KeyError: id"
    | some idv => .ok (mergeNode g ⟨lbl, idv⟩ idv (scalarProps obj))

/-- Does edge `e` match the unkeyed MERGE pattern
`(s)-[r:typ]->(t)` (any properties)? -/
def refMatch (s t : NodeKey) (typ : String) (e : Edge) : Bool :=
  e.src == s && e.tgt == t && e.typ == typ

/-- `MERGE (source)-[r:typ]->(target)` on the edge table, for one matched
source/target pair: a no-op when any relationship of that type already
connects the pair. -/
def mergeRefEdgeList (es : List Edge) (s t : NodeKey) (typ : String) : List Edge :=
  if es.any (refMatch s t typ) then es
  else es ++ [⟨s, t, typ, emptyProps⟩]

/-- All nodes whose `id` property equals `idv` — what
`MATCH (x {id: $xid})` returns (the label plays no part). -/
def nodesWithId (ns : List (NodeKey × Props)) (idv : JValue) : List NodeKey :=
  (ns.filter (fun n => n.1.id == idv)).map (·.1)

/-- The rows produced by `MATCH (source {id: $source_id})
MATCH (target {id: $target_id})`: the cartesian product of the matching
sources and targets. -/
def pairsOf (ns : List (NodeKey × Props)) (srcId tgtId : JValue) :
    List (NodeKey × NodeKey) :=
  (nodesWithId ns srcId).flatMap
    (fun s => (nodesWithId ns tgtId).map (fun t => (s, t)))

/-- `Neo4jHandler._create_relationship` as one write transaction:
sanitize the type, match sources and targets by `id` property alone, and
MERGE one edge per matched row; zero rows means zero MERGEs (no error). -/
def createRelationship (g : Graph) (srcId tgtId : JValue) (relType : String) : Graph :=
  Graph.mk g.nodes ((pairsOf g.nodes srcId tgtId).foldl
    (fun es p => mergeRefEdgeList es p.1 p.2 (sanitizeRelType relType)) g.edges)

/-- Does edge `e` match the keyed MERGE pattern
`(s)-[r:typ {id: $rid}]->(t)`? -/
def stixMatch (s t : NodeKey) (typ : String) (ridv : JValue) (e : Edge) : Bool :=
  e.src == s && e.tgt == t && e.typ == typ && e.props "id" == some ridv

/-- `MERGE (source)-[r:typ {id: $relationship_id}]->(target)
SET r += $props` on the edge table, for one matched pair: update every
edge of that type between the pair whose `id` property is `ridv`, or
create one initialized from the MERGE pattern and then receive `props`. -/
def mergeStixEdgeList (es : List Edge) (s t : NodeKey) (typ : String) (ridv : JValue)
    (props : Props) : List Edge :=
  if es.any (stixMatch s t typ ridv) then
    es.map (fun e => if stixMatch s t typ ridv e
      then { e with props := overrideProps e.props props } else e)
  else
    es ++ [⟨s, t, typ, overrideProps (fun k => if k = "id" then some ridv else none) props⟩]

/-- `Neo4jHandler._create_stix_relationship` as one write transaction.
`relationship_id` is `stix_obj.get("id")`: when it is `None`, Neo4j
rejects the MERGE on a null property value, which the caller's inner
`try` catches. -/
def createStixRelationship (g : Graph) (srcId tgtId : JValue) (relType : String)
    (relId : Option JValue) (props : Props) : Except String Graph :=
  match relId with
  | none => .error "cannot merge on null property"
  | some ridv =>
    .ok (Graph.mk g.nodes ((pairsOf g.nodes srcId tgtId).foldl
      (fun es p => mergeStixEdgeList es p.1 p.2 (sanitizeRelType relType) ridv props)
      g.edges))

/-- `stix_obj.get("relationship_type", "RELATED_TO").upper()`: the
default applies only when the key is absent; `.upper()` on a non-string
value raises `AttributeError` (outside any inner `try`). -/
def relTypeUpper (obj : Record) : Except String String :=
  match lookupDict obj "relationship_type" with
  | none => .ok (pyUpper "RELATED_TO")
  | some (.str s) => .ok (pyUpper s)
  | some _ => .error "AttributeError: upper"

/-- The body of `Neo4jHandler.load_stix_object` without its outermost
`try`: returns the graph state reached (effects of every transaction
committed before any uncaught exception persist) together with the
uncaught exception, if one was raised.  Each `session.execute_write`
call is one separate store transaction; the per-reference and
relationship `execute_write` calls sit inside their own inner `try`,
whose caught errors leave the loop running. -/
def nodeStep (g : Graph) (obj : Record) : Graph × Option String :=
  if lookupDict obj "type" = some (.str "relationship") then (g, none)
  else
    match createNode g obj with
    | .ok g' => (g', none)
    | .error e => (g, some e)

/-- The report branch (`if obj_type == "report" and "object_refs" in
stix_obj`): iterate the reference list, one `execute_write` per
reference, each in its own inner `try` (a `KeyError` from
`stix_obj["id"]` is caught per reference); a non-iterable `object_refs`
raises out of the branch. -/
def refsStep (g : Graph) (obj : Record) : Graph × Option String :=
  match lookupDict obj "object_refs" with
  | none => (g, none)
  | some v =>
    match toIterList v with
    | .error e => (g, some e)
    | .ok refs =>
      (refs.foldl (fun gacc ref =>
        match lookupDict obj "id" with
        | none => gacc
        | some sid => createRelationship gacc sid ref "REFERENCES") g, none)

/-- The relationship branch (`elif obj_type == "relationship"`): read the
endpoints, compute the upper-cased relationship type (possibly raising),
and — when both endpoints are truthy — run the keyed MERGE inside its
inner `try`. -/
def relStep (g : Graph) (obj : Record) : Graph × Option String :=
  match relTypeUpper obj with
  | .error e => (g, some e)
  | .ok rt =>
    match lookupDict obj "source_ref", lookupDict obj "target_ref" with
    | some sv, some tv =>
      if truthy sv && truthy tv then
        match createStixRelationship g sv tv rt (lookupDict obj "id")
            (scalarProps obj) with
        | .ok g2 => (g2, none)
        | .error _ => (g, none)
      else (g, none)
    | _, _ => (g, none)

def loadStixObjectBody (g : Graph) (obj : Record) : Graph × Option String :=
  match nodeStep g obj with
  | (g1, some e) => (g1, some e)
  | (g1, none) =>
    if lookupDict obj "type" = some (.str "report") ∧ hasKey obj "object_refs" = true then
      refsStep g1 obj
    else if lookupDict obj "type" = some (.str "relationship") then
      relStep g1 obj
    else (g1, none)

/-- `Neo4jHandler.load_stix_object`: the body wrapped in the outermost
`try/except`, which logs and returns normally, keeping whatever the
already-committed transactions did. -/
def loadStixObject (g : Graph) (obj : Record) : Graph :=
  (loadStixObjectBody g obj).1

/-- Processing a batch of records in order (the per-object loop in
`main`, whose own `try` never fires because `load_stix_object` already
catches everything). -/
def processAll (recs : List Record) (g : Graph) : Graph :=
  recs.foldl loadStixObject g

/-- One graph mutation intent.  Each emitted intent corresponds to
exactly one `session.execute_write` invocation in
`load_stix_object`, i.e. to one separate Neo4j write transaction. -/
inductive Intent where
  | nodeUpsert (obj : Record)
  | refEdge (srcId tgtId : JValue) (typ : String)
  | stixEdge (srcId tgtId : JValue) (typ : String) (relId : Option JValue)
      (props : Props)

/-- Whether the `_create_node` transaction raises for this record
(missing `id`, or a non-string `type` value); the condition does not
depend on the graph state. -/
def nodeRaises (obj : Record) : Bool :=
  match nodeLabel obj, lookupDict obj "id" with
  | .ok _, some _ => false
  | _, _ => true

/-- The edge-upsert `execute_write` calls a record leads to (the report
branch and the relationship branch of `load_stix_object`). -/
def edgeIntentsOf (obj : Record) : List Intent :=
  if lookupDict obj "type" = some (.str "report") ∧ hasKey obj "object_refs" = true then
    match lookupDict obj "object_refs" with
    | none => []
    | some v =>
      match toIterList v with
      | .error _ => []
      | .ok refs =>
        refs.flatMap (fun ref =>
          match lookupDict obj "id" with
          | none => []
          | some sid => [Intent.refEdge sid ref "REFERENCES"])
  else if lookupDict obj "type" = some (.str "relationship") then
    match relTypeUpper obj with
    | .error _ => []
    | .ok rt =>
      match lookupDict obj "source_ref", lookupDict obj "target_ref" with
      | some sv, some tv =>
        if truthy sv && truthy tv then
          [Intent.stixEdge sv tv rt (lookupDict obj "id") (scalarProps obj)]
        else []
      | _, _ => []
  else []

/-- The full sequence of `session.execute_write` invocations (each one a
separate store transaction) that `load_stix_object` makes for a record:
the node upsert for non-relationship records, then — unless the node
transaction raised, which skips the rest of the body — the derived edge
upserts. -/
def intentsOf (obj : Record) : List Intent :=
  if lookupDict obj "type" = some (.str "relationship") then
    edgeIntentsOf obj
  else
    Intent.nodeUpsert obj :: (if nodeRaises obj then [] else edgeIntentsOf obj)

/-- One TAXII envelope page: `{objects: [...], more: bool, next?: str}`.
An absent `objects` key is the empty list and an absent `more` key is
`false` (the source uses `response.get` with those defaults). -/
structure Page where
  objects : List Record
  more : Bool
  next : Option String

/-- The pagination loop of `fetch_stix_objects`: `feed none` is the GET
of the base endpoint and `feed (some t)` the GET with `?next=t`.  Returns
the accumulated objects and the number of GET requests issued.  `fuel`
bounds the number of iterations (the Python loop has no such bound; every
claim holds for all sufficiently large fuel). -/
def fetchLoop (feed : Option String → Page) : Nat → Option String → List Record × Nat
  | 0, _ => ([], 0)
  | fuel + 1, cursor =>
    let page := feed cursor
    match page.more, page.next with
    | true, some t =>
      if t ≠ "" then
        let rest := fetchLoop feed fuel (some t)
        (page.objects ++ rest.1, rest.2 + 1)
      else (page.objects, 1)
    | _, _ => (page.objects, 1)

/-- `fetch_stix_objects`: run the loop from the base endpoint. -/
def fetchStixObjects (feed : Option String → Page) (fuel : Nat) : List Record × Nat :=
  fetchLoop feed fuel none

/-! ### Concrete records and states used in the claim statements -/

/-- A report record with two references (spec §8 scenario shape). -/
def recReport : Record :=
  [("type", .str "report"), ("id", .str "report--r1"),
   ("name", .str "Campaign Report"),
   ("object_refs", .list [.str "indicator--i1", .str "malware--m1"])]

/-- A report record with one reference. -/
def recReportOneRef : Record :=
  [("type", .str "report"), ("id", .str "report--r1"),
   ("object_refs", .list [.str "indicator--i1"])]

/-- A report record whose `object_refs` value is not iterable: its node
transaction commits, then the reference loop raises `TypeError`. -/
def recBadRefs : Record :=
  [("type", .str "report"), ("id", .str "report--r9"), ("object_refs", .int 5)]

/-- A non-report record that carries a non-empty reference list. -/
def recNote : Record :=
  [("type", .str "note"), ("id", .str "note--n1"),
   ("object_refs", .list [.str "indicator--i1"])]

/-- A record with no `id` field: its node upsert raises `KeyError`. -/
def recNoId : Record := [("type", .str "indicator"), ("pattern", .str "x")]

/-- The same `id` under two different type tags. -/
def recIndX : Record := [("type", .str "indicator"), ("id", .str "x")]

/-- See `recIndX`. -/
def recMalX : Record := [("type", .str "malware"), ("id", .str "x")]

/-- A record carrying only an `id` (no `type` key at all). -/
def recOnlyId : Record := [("id", .str "q1")]

/-- The graph after the node transaction of `recBadRefs` commits. -/
def gBadNode : Graph :=
  mergeNode emptyGraph ⟨"report", .str "report--r9"⟩ (.str "report--r9")
    (scalarProps recBadRefs)

/-- A relationship record between `s1` and `t1`, parameterized by its own
record id. -/
def relRec (rid : String) : Record :=
  [("type", .str "relationship"), ("id", .str rid),
   ("source_ref", .str "s1"), ("target_ref", .str "t1"),
   ("relationship_type", .str "uses")]

/-- A graph that already holds the two endpoint vertices of `relRec`. -/
def gPair : Graph :=
  Graph.mk [(⟨"indicator", .str "s1"⟩, emptyProps), (⟨"malware", .str "t1"⟩, emptyProps)] []

/-- First page of a concrete 3-page feed. -/
def pageW1 : Page := ⟨[recReportOneRef], true, some "a"⟩

/-- Second page of the concrete feed. -/
def pageW2 : Page := ⟨[recNote], true, some "b"⟩

/-- Last page of the concrete feed. -/
def pageW3 : Page := ⟨[recOnlyId], false, none⟩

/-- The concrete 3-page feed. -/
def feedW : Option String → Page := fun c =>
  match c with
  | none => pageW1
  | some "a" => pageW2
  | some "b" => pageW3
  | some _ => pageW3

/-! ### Helper views of the merge statements, and iteration -/

/-- The per-node update function of the node MERGE
(`mergeNodeList` in its match branch). -/
def nodeUpd (key : NodeKey) (props : Props) (n : NodeKey × Props) : NodeKey × Props :=
  if n.1 == key then (n.1, overrideProps n.2 props) else n

/-- The per-edge update function of the keyed relationship MERGE
(`mergeStixEdgeList` in its match branch). -/
def stixUpd (s t : NodeKey) (typ : String) (ridv : JValue) (props : Props)
    (e : Edge) : Edge :=
  if stixMatch s t typ ridv e then { e with props := overrideProps e.props props } else e

/-- An edge matching the unkeyed pattern `(s)-[:typ]->(t)` is present. -/
def refPresent (es : List Edge) (s t : NodeKey) (typ : String) : Prop :=
  es.any (refMatch s t typ) = true

/-- An edge matching the keyed pattern `(s)-[:typ {id: ridv}]->(t)` is
present. -/
def stixPresent (es : List Edge) (s t : NodeKey) (typ : String) (ridv : JValue) : Prop :=
  es.any (stixMatch s t typ ridv) = true

/-- The keyed MERGE for this pattern has nothing left to do beyond
re-`SET`ting already-absorbed properties: a matching edge is present,
and every matching edge already absorbs `props`. -/
def stixSettled (es : List Edge) (s t : NodeKey) (typ : String) (ridv : JValue)
    (props : Props) : Prop :=
  stixPresent es s t typ ridv ∧
    ∀ e ∈ es, stixMatch s t typ ridv e = true → overrideProps e.props props = e.props

/-- `load_stix_object` applied `n` times with the same record. -/
def applyTimes (obj : Record) : Nat → Graph → Graph
  | 0, g => g
  | n + 1, g => applyTimes obj n (loadStixObject g obj)

/-! ### Generic helper lemmas -/

theorem overrideProps_self (p q : Props) :
    overrideProps (overrideProps p q) q = overrideProps p q := by
  funext k
  unfold overrideProps
  cases q k <;> rfl

theorem map_id_of_any_false {α : Type} (l : List α) (p : α → Bool) (f : α → α)
    (hf : ∀ x, p x = false → f x = x) (h : l.any p = false) : l.map f = l := by
  induction l with
  | nil => rfl
  | cons a t ih =>
    simp only [List.any_cons, Bool.or_eq_false_iff] at h
    simp only [List.map_cons, hf a h.1, ih h.2]

theorem map_idem_of_ptwise {α : Type} (l : List α) (f : α → α)
    (hf : ∀ x ∈ l, f (f x) = f x) : (l.map f).map f = l.map f := by
  rw [List.map_map]
  exact List.map_congr_left (fun a ha => hf a ha)

/-! ### Node upsert lemmas -/

theorem nodeUpd_fst (key : NodeKey) (props : Props) (n : NodeKey × Props) :
    (nodeUpd key props n).1 = n.1 := by
  unfold nodeUpd
  by_cases hn : n.1 = key <;> simp [hn]

theorem nodeUpd_idem (key : NodeKey) (props : Props) (n : NodeKey × Props) :
    nodeUpd key props (nodeUpd key props n) = nodeUpd key props n := by
  unfold nodeUpd
  by_cases hn : n.1 = key
  · simp [hn, overrideProps_self]
  · simp [hn]

theorem mergeNodeList_eq (ns : List (NodeKey × Props)) (key : NodeKey)
    (idv : JValue) (props : Props) :
    mergeNodeList ns key idv props
      = if ns.any (fun n => n.1 == key) then ns.map (nodeUpd key props)
        else ns ++ [(key, overrideProps
          (fun k => if k = "id" then some idv else none) props)] := rfl

theorem any_congr_fn {α : Type} (l : List α) (p q : α → Bool) (h : ∀ a, p a = q a) :
    l.any p = l.any q := by
  induction l with
  | nil => rfl
  | cons a t ih => simp only [List.any_cons, h a, ih]

theorem any_key_map_nodeUpd (ns : List (NodeKey × Props)) (key key' : NodeKey)
    (props : Props) :
    ((ns.map (nodeUpd key props)).any (fun n => n.1 == key'))
      = ns.any (fun n => n.1 == key') := by
  rw [List.any_map]
  apply any_congr_fn
  intro n
  show ((nodeUpd key props n).1 == key') = (n.1 == key')
  rw [nodeUpd_fst]

theorem mergeNodeList_idem (ns : List (NodeKey × Props)) (key : NodeKey)
    (idv : JValue) (props : Props) :
    mergeNodeList (mergeNodeList ns key idv props) key idv props
      = mergeNodeList ns key idv props := by
  rw [mergeNodeList_eq, mergeNodeList_eq]
  by_cases h : ns.any (fun n => n.1 == key) = true
  · rw [if_pos h, if_pos (by rw [any_key_map_nodeUpd]; exact h)]
    exact map_idem_of_ptwise ns (nodeUpd key props) (fun x _ => nodeUpd_idem key props x)
  · have h' : ns.any (fun n => n.1 == key) = false := by
      revert h
      cases ns.any (fun n => n.1 == key) <;> simp
    rw [if_neg h]
    have hany : ((ns ++ [(key, overrideProps
        (fun k => if k = "id" then some idv else none) props)]).any
          (fun n => n.1 == key)) = true := by
      rw [List.any_append]
      simp
    rw [if_pos hany, List.map_append]
    have h1 : ns.map (nodeUpd key props) = ns := by
      apply map_id_of_any_false _ (fun n => n.1 == key)
      · intro x hx
        unfold nodeUpd
        simp [hx]
      · exact h'
    rw [h1]
    show ns ++ [nodeUpd key props _] = _
    unfold nodeUpd
    simp [overrideProps_self]

theorem mergeNodeList_keys (ns : List (NodeKey × Props)) (key : NodeKey)
    (idv : JValue) (props : Props) :
    (mergeNodeList ns key idv props).map (·.1)
      = if ns.any (fun n => n.1 == key) then ns.map (·.1)
        else ns.map (·.1) ++ [key] := by
  rw [mergeNodeList_eq]
  by_cases h : ns.any (fun n => n.1 == key) = true
  · rw [if_pos h, if_pos h, List.map_map]
    apply List.map_congr_left
    intro n _
    exact nodeUpd_fst key props n
  · rw [if_neg h, if_neg h, List.map_append]
    rfl

theorem mergeNodeList_nodupKeys (ns : List (NodeKey × Props)) (key : NodeKey)
    (idv : JValue) (props : Props) (h : (ns.map (·.1)).Nodup) :
    ((mergeNodeList ns key idv props).map (·.1)).Nodup := by
  rw [mergeNodeList_keys]
  by_cases hc : ns.any (fun n => n.1 == key) = true
  · rw [if_pos hc]; exact h
  · rw [if_neg hc]
    have hc' : ∀ n ∈ ns, ¬(n.1 = key) := by
      intro n hn heq
      apply hc
      rw [List.any_eq_true]
      exact ⟨n, hn, by simp [heq]⟩
    refine List.Nodup.append h (List.nodup_singleton key) ?_
    intro a ha
    simp only [List.mem_map] at ha
    obtain ⟨n, hn, rfl⟩ := ha
    simp [hc' n hn]

/-! ### Reference-edge upsert lemmas -/

theorem mergeRefEdgeList_of_present (es : List Edge) (s t : NodeKey) (typ : String)
    (h : refPresent es s t typ) : mergeRefEdgeList es s t typ = es := by
  unfold refPresent at h
  unfold mergeRefEdgeList
  rw [if_pos h]

theorem mergeRefEdgeList_present (es : List Edge) (s t : NodeKey) (typ : String) :
    refPresent (mergeRefEdgeList es s t typ) s t typ := by
  unfold mergeRefEdgeList refPresent
  by_cases h : es.any (refMatch s t typ) = true
  · rw [if_pos h]; exact h
  · rw [if_neg h, List.any_append]
    simp [refMatch]

theorem mem_mergeRefEdgeList (es : List Edge) (s t : NodeKey) (typ : String)
    (e : Edge) (he : e ∈ es) : e ∈ mergeRefEdgeList es s t typ := by
  unfold mergeRefEdgeList
  by_cases h : es.any (refMatch s t typ) = true
  · rw [if_pos h]; exact he
  · rw [if_neg h]; exact List.mem_append_left _ he

theorem refPresent_mono_merge (es : List Edge) (s t : NodeKey) (typ : String)
    (s' t' : NodeKey) (typ' : String) (h : refPresent es s t typ) :
    refPresent (mergeRefEdgeList es s' t' typ') s t typ := by
  unfold refPresent at *
  rw [List.any_eq_true] at *
  obtain ⟨e, he, hm⟩ := h
  exact ⟨e, mem_mergeRefEdgeList es s' t' typ' e he, hm⟩

theorem foldRef_present_mono (pairs : List (NodeKey × NodeKey)) (es : List Edge)
    (typf : String) (s t : NodeKey) (typ : String) (h : refPresent es s t typ) :
    refPresent (pairs.foldl (fun es p => mergeRefEdgeList es p.1 p.2 typf) es) s t typ := by
  induction pairs generalizing es with
  | nil => exact h
  | cons q ps ih =>
    rw [List.foldl_cons]
    exact ih _ (refPresent_mono_merge es s t typ q.1 q.2 typf h)

theorem foldRef_present_all (pairs : List (NodeKey × NodeKey)) (es : List Edge)
    (typ : String) :
    ∀ p ∈ pairs,
      refPresent (pairs.foldl (fun es q => mergeRefEdgeList es q.1 q.2 typ) es)
        p.1 p.2 typ := by
  induction pairs generalizing es with
  | nil => intro p hp; cases hp
  | cons q ps ih =>
    intro p hp
    rw [List.foldl_cons]
    rcases List.mem_cons.mp hp with rfl | hp'
    · exact foldRef_present_mono ps _ typ p.1 p.2 typ (mergeRefEdgeList_present es p.1 p.2 typ)
    · exact ih _ p hp'

theorem foldRef_id_of_present (pairs : List (NodeKey × NodeKey)) (es : List Edge)
    (typ : String) (h : ∀ p ∈ pairs, refPresent es p.1 p.2 typ) :
    pairs.foldl (fun es q => mergeRefEdgeList es q.1 q.2 typ) es = es := by
  induction pairs with
  | nil => rfl
  | cons q ps ih =>
    rw [List.foldl_cons, mergeRefEdgeList_of_present es q.1 q.2 typ (h q (by simp))]
    exact ih (fun p hp => h p (List.mem_cons_of_mem q hp))

theorem createRelationship_nodes (g : Graph) (a b : JValue) (rt : String) :
    (createRelationship g a b rt).nodes = g.nodes := rfl

theorem createRelationship_idem (g : Graph) (a b : JValue) (rt : String) :
    createRelationship (createRelationship g a b rt) a b rt
      = createRelationship g a b rt := by
  show Graph.mk _ _ = _
  unfold createRelationship
  congr 1
  exact foldRef_id_of_present _ _ _ (foldRef_present_all _ _ _)

/-! ### Keyed relationship upsert lemmas -/

theorem map_id_of_ptwise_id {α : Type} (l : List α) (f : α → α)
    (h : ∀ x ∈ l, f x = x) : l.map f = l := by
  induction l with
  | nil => rfl
  | cons a t ih =>
    rw [List.map_cons, h a (by simp), ih (fun x hx => h x (List.mem_cons_of_mem a hx))]

theorem mergeStixEdgeList_eq (es : List Edge) (s t : NodeKey) (typ : String)
    (ridv : JValue) (props : Props) :
    mergeStixEdgeList es s t typ ridv props
      = if es.any (stixMatch s t typ ridv) then es.map (stixUpd s t typ ridv props)
        else es ++ [⟨s, t, typ,
          overrideProps (fun k => if k = "id" then some ridv else none) props⟩] := rfl

theorem stixUpd_of_match (s t : NodeKey) (typ : String) (ridv : JValue) (props : Props)
    (e : Edge) (hm : stixMatch s t typ ridv e = true) :
    stixUpd s t typ ridv props e = { e with props := overrideProps e.props props } := by
  unfold stixUpd
  rw [if_pos hm]

theorem stixUpd_of_not_match (s t : NodeKey) (typ : String) (ridv : JValue)
    (props : Props) (e : Edge) (hm : ¬ stixMatch s t typ ridv e = true) :
    stixUpd s t typ ridv props e = e := by
  unfold stixUpd
  rw [if_neg hm]

theorem newStixEdge_match (s t : NodeKey) (typ : String) (ridv : JValue) (props : Props)
    (hp : props "id" = none ∨ props "id" = some ridv) :
    stixMatch s t typ ridv
      ⟨s, t, typ, overrideProps (fun k => if k = "id" then some ridv else none) props⟩
        = true := by
  unfold stixMatch overrideProps
  rcases hp with hp | hp <;> simp [hp]

theorem updProps_match (s t : NodeKey) (typ : String) (ridv : JValue) (props : Props)
    (e : Edge) (hp : props "id" = none ∨ props "id" = some ridv)
    (hm : stixMatch s t typ ridv e = true) :
    stixMatch s t typ ridv ({ e with props := overrideProps e.props props }) = true := by
  unfold stixMatch at hm ⊢
  simp only [Bool.and_eq_true] at hm ⊢
  refine ⟨hm.1, ?_⟩
  show (overrideProps e.props props "id" == some ridv) = true
  unfold overrideProps
  rcases hp with hp | hp
  · rw [hp]; exact hm.2
  · rw [hp]; simp

theorem mergeStixEdgeList_settles (es : List Edge) (s t : NodeKey) (typ : String)
    (ridv : JValue) (props : Props)
    (hp : props "id" = none ∨ props "id" = some ridv) :
    stixSettled (mergeStixEdgeList es s t typ ridv props) s t typ ridv props := by
  rw [mergeStixEdgeList_eq]
  by_cases h : es.any (stixMatch s t typ ridv) = true
  · rw [if_pos h]
    obtain ⟨e, he, hm⟩ := List.any_eq_true.mp h
    constructor
    · refine List.any_eq_true.mpr ⟨stixUpd s t typ ridv props e,
        List.mem_map_of_mem _ he, ?_⟩
      rw [stixUpd_of_match s t typ ridv props e hm]
      exact updProps_match s t typ ridv props e hp hm
    · intro e' he' hm'
      rw [List.mem_map] at he'
      obtain ⟨e₀, he₀, rfl⟩ := he'
      by_cases hm₀ : stixMatch s t typ ridv e₀ = true
      · rw [stixUpd_of_match s t typ ridv props e₀ hm₀]
        exact overrideProps_self e₀.props props
      · rw [stixUpd_of_not_match s t typ ridv props e₀ hm₀] at hm'
        exact absurd hm' hm₀
  · rw [if_neg h]
    constructor
    · exact List.any_eq_true.mpr
        ⟨⟨s, t, typ, overrideProps (fun k => if k = "id" then some ridv else none) props⟩,
          List.mem_append_right es (by simp), newStixEdge_match s t typ ridv props hp⟩
    · intro e he hm
      rcases List.mem_append.mp he with he | he
      · exact absurd (List.any_eq_true.mpr ⟨e, he, hm⟩) h
      · rw [List.mem_singleton] at he
        subst he
        exact overrideProps_self _ props

theorem mergeStixEdgeList_of_settled (es : List Edge) (s t : NodeKey) (typ : String)
    (ridv : JValue) (props : Props) (h : stixSettled es s t typ ridv props) :
    mergeStixEdgeList es s t typ ridv props = es := by
  rw [mergeStixEdgeList_eq,
    if_pos (show es.any (stixMatch s t typ ridv) = true from h.1)]
  apply map_id_of_ptwise_id
  intro e he
  by_cases hm : stixMatch s t typ ridv e = true
  · rw [stixUpd_of_match s t typ ridv props e hm, h.2 e he hm]
  · exact stixUpd_of_not_match s t typ ridv props e hm

theorem stixSettled_mono (es : List Edge) (s t s' t' : NodeKey) (typ : String)
    (ridv : JValue) (props : Props)
    (hp : props "id" = none ∨ props "id" = some ridv)
    (h : stixSettled es s t typ ridv props) :
    stixSettled (mergeStixEdgeList es s' t' typ ridv props) s t typ ridv props := by
  rw [mergeStixEdgeList_eq]
  by_cases hc : es.any (stixMatch s' t' typ ridv) = true
  · rw [if_pos hc]
    obtain ⟨e, he, hm⟩ := List.any_eq_true.mp h.1
    constructor
    · refine List.any_eq_true.mpr ⟨stixUpd s' t' typ ridv props e,
        List.mem_map_of_mem _ he, ?_⟩
      by_cases hm' : stixMatch s' t' typ ridv e = true
      · rw [stixUpd_of_match s' t' typ ridv props e hm']
        exact updProps_match s t typ ridv props e hp hm
      · rw [stixUpd_of_not_match s' t' typ ridv props e hm']
        exact hm
    · intro e' he' hm'
      rw [List.mem_map] at he'
      obtain ⟨e₀, he₀, rfl⟩ := he'
      by_cases hm₀ : stixMatch s' t' typ ridv e₀ = true
      · rw [stixUpd_of_match s' t' typ ridv props e₀ hm₀]
        exact overrideProps_self e₀.props props
      · rw [stixUpd_of_not_match s' t' typ ridv props e₀ hm₀] at hm' ⊢
        exact h.2 e₀ he₀ hm'
  · rw [if_neg hc]
    obtain ⟨e, he, hm⟩ := List.any_eq_true.mp h.1
    constructor
    · exact List.any_eq_true.mpr ⟨e, List.mem_append_left _ he, hm⟩
    · intro e' he' hm'
      rcases List.mem_append.mp he' with he' | he'
      · exact h.2 e' he' hm'
      · rw [List.mem_singleton] at he'
        subst he'
        exact overrideProps_self _ props

theorem foldStix_settled_mono (pairs : List (NodeKey × NodeKey)) (es : List Edge)
    (typ : String) (ridv : JValue) (props : Props) (s t : NodeKey)
    (hp : props "id" = none ∨ props "id" = some ridv)
    (h : stixSettled es s t typ ridv props) :
    stixSettled (pairs.foldl (fun es p => mergeStixEdgeList es p.1 p.2 typ ridv props) es)
      s t typ ridv props := by
  induction pairs generalizing es with
  | nil => exact h
  | cons q ps ih =>
    rw [List.foldl_cons]
    exact ih _ (stixSettled_mono es s t q.1 q.2 typ ridv props hp h)

theorem foldStix_settled_all (pairs : List (NodeKey × NodeKey)) (es : List Edge)
    (typ : String) (ridv : JValue) (props : Props)
    (hp : props "id" = none ∨ props "id" = some ridv) :
    ∀ p ∈ pairs,
      stixSettled (pairs.foldl (fun es q => mergeStixEdgeList es q.1 q.2 typ ridv props) es)
        p.1 p.2 typ ridv props := by
  induction pairs generalizing es with
  | nil => intro p hp'; cases hp'
  | cons q ps ih =>
    intro p hp'
    rw [List.foldl_cons]
    rcases List.mem_cons.mp hp' with rfl | hp''
    · exact foldStix_settled_mono ps _ typ ridv props p.1 p.2 hp
        (mergeStixEdgeList_settles es p.1 p.2 typ ridv props hp)
    · exact ih _ p hp''

theorem foldStix_id_of_settled (pairs : List (NodeKey × NodeKey)) (es : List Edge)
    (typ : String) (ridv : JValue) (props : Props)
    (h : ∀ p ∈ pairs, stixSettled es p.1 p.2 typ ridv props) :
    pairs.foldl (fun es q => mergeStixEdgeList es q.1 q.2 typ ridv props) es = es := by
  induction pairs with
  | nil => rfl
  | cons q ps ih =>
    rw [List.foldl_cons, mergeStixEdgeList_of_settled es q.1 q.2 typ ridv props
      (h q (by simp))]
    exact ih (fun p hp => h p (List.mem_cons_of_mem q hp))

theorem createStixRelationship_some (g : Graph) (a b : JValue) (rt : String)
    (ridv : JValue) (props : Props) :
    createStixRelationship g a b rt (some ridv) props
      = .ok (Graph.mk g.nodes ((pairsOf g.nodes a b).foldl
          (fun es p => mergeStixEdgeList es p.1 p.2 (sanitizeRelType rt) ridv props)
          g.edges)) := rfl

theorem createStixRelationship_ok_idem (g : Graph) (a b : JValue) (rt : String)
    (ridv : JValue) (props : Props)
    (hp : props "id" = none ∨ props "id" = some ridv) (g' : Graph)
    (h : createStixRelationship g a b rt (some ridv) props = .ok g') :
    createStixRelationship g' a b rt (some ridv) props = .ok g' := by
  rw [createStixRelationship_some, Except.ok.injEq] at h
  subst h
  rw [createStixRelationship_some, Except.ok.injEq]
  show Graph.mk g.nodes _ = _
  congr 1
  exact foldStix_id_of_settled _ _ _ _ _ (foldStix_settled_all _ _ _ _ _ hp)

/-! ### Graph-level lemmas for the report-references fold -/

theorem createRelationship_present_mono (g : Graph) (a b : JValue) (t0 : String)
    (s t : NodeKey) (typ : String) (h : refPresent g.edges s t typ) :
    refPresent (createRelationship g a b t0).edges s t typ := by
  unfold createRelationship
  exact foldRef_present_mono _ _ _ _ _ _ h

theorem createRelationship_present_all (g : Graph) (a b : JValue) (t0 : String) :
    ∀ p ∈ pairsOf g.nodes a b,
      refPresent (createRelationship g a b t0).edges p.1 p.2 (sanitizeRelType t0) := by
  unfold createRelationship
  exact foldRef_present_all _ _ _

theorem foldCrel_nodes (refs : List JValue) (sid : JValue) (t0 : String) (g : Graph) :
    (refs.foldl (fun gacc ref => createRelationship gacc sid ref t0) g).nodes
      = g.nodes := by
  induction refs generalizing g with
  | nil => rfl
  | cons r rs ih =>
    rw [List.foldl_cons, ih, createRelationship_nodes]

theorem foldCrel_present_mono (refs : List JValue) (sid : JValue) (t0 : String)
    (g : Graph) (s t : NodeKey) (typ : String) (h : refPresent g.edges s t typ) :
    refPresent ((refs.foldl (fun gacc ref => createRelationship gacc sid ref t0) g).edges)
      s t typ := by
  induction refs generalizing g with
  | nil => exact h
  | cons r rs ih =>
    rw [List.foldl_cons]
    exact ih _ (createRelationship_present_mono g sid r t0 s t typ h)

theorem foldCrel_present_all (refs : List JValue) (sid : JValue) (t0 : String)
    (g : Graph) :
    ∀ ref ∈ refs, ∀ p ∈ pairsOf g.nodes sid ref,
      refPresent ((refs.foldl (fun gacc ref => createRelationship gacc sid ref t0) g).edges)
        p.1 p.2 (sanitizeRelType t0) := by
  induction refs generalizing g with
  | nil => intro ref h; cases h
  | cons r rs ih =>
    intro ref href p hp
    rw [List.foldl_cons]
    rcases List.mem_cons.mp href with rfl | href'
    · exact foldCrel_present_mono rs sid t0 _ p.1 p.2 _
        (createRelationship_present_all g sid ref t0 p hp)
    · have hn : (createRelationship g sid r t0).nodes = g.nodes :=
        createRelationship_nodes g sid r t0
      exact ih (createRelationship g sid r t0) ref href' p (by rw [hn]; exact hp)

theorem createRelationship_id_of_present (g : Graph) (a b : JValue) (t0 : String)
    (h : ∀ p ∈ pairsOf g.nodes a b, refPresent g.edges p.1 p.2 (sanitizeRelType t0)) :
    createRelationship g a b t0 = g := by
  unfold createRelationship
  rw [foldRef_id_of_present _ _ _ h]

theorem foldCrel_id_of_present (refs : List JValue) (sid : JValue) (t0 : String)
    (g : Graph)
    (h : ∀ ref ∈ refs, ∀ p ∈ pairsOf g.nodes sid ref,
      refPresent g.edges p.1 p.2 (sanitizeRelType t0)) :
    refs.foldl (fun gacc ref => createRelationship gacc sid ref t0) g = g := by
  induction refs with
  | nil => rfl
  | cons r rs ih =>
    rw [List.foldl_cons, createRelationship_id_of_present g sid r t0 (h r (by simp))]
    exact ih (fun ref href => h ref (List.mem_cons_of_mem r href))

/-! ### Per-step stability lemmas for `load_stix_object` -/

theorem mergeNode_stable (g : Graph) (key : NodeKey) (idv : JValue) (props : Props)
    (h : mergeNodeList g.nodes key idv props = g.nodes) :
    mergeNode g key idv props = g := by
  unfold mergeNode
  rw [h]

theorem createNode_ok_elim (g : Graph) (obj : Record) (g' : Graph)
    (h : createNode g obj = .ok g') :
    ∃ lbl idv, nodeLabel obj = .ok lbl ∧ lookupDict obj "id" = some idv ∧
      g' = mergeNode g ⟨lbl, idv⟩ idv (scalarProps obj) := by
  unfold createNode at h
  cases hl : nodeLabel obj with
  | error e => rw [hl] at h; cases h
  | ok lbl =>
    rw [hl] at h
    cases hid : lookupDict obj "id" with
    | none => rw [hid] at h; cases h
    | some idv =>
      rw [hid] at h
      rw [Except.ok.injEq] at h
      exact ⟨lbl, idv, rfl, rfl, h.symm⟩

theorem createNode_error_any_graph (g g₂ : Graph) (obj : Record) (e : String)
    (h : createNode g obj = .error e) : createNode g₂ obj = .error e := by
  unfold createNode at h ⊢
  cases hl : nodeLabel obj with
  | error e' => rw [hl] at h; exact h
  | ok lbl =>
    rw [hl] at h
    cases hid : lookupDict obj "id" with
    | none => rw [hid] at h; exact h
    | some idv => rw [hid] at h; cases h

theorem createNode_stable (g : Graph) (obj : Record) (g' g₂ : Graph)
    (h : createNode g obj = .ok g') (hn : g₂.nodes = g'.nodes) :
    createNode g₂ obj = .ok g₂ := by
  obtain ⟨lbl, idv, hl, hid, hg'⟩ := createNode_ok_elim g obj g' h
  unfold createNode
  rw [hl, hid, Except.ok.injEq]
  apply mergeNode_stable
  rw [hn, hg']
  show mergeNodeList (mergeNodeList g.nodes ⟨lbl, idv⟩ idv (scalarProps obj)) _ _ _
    = mergeNodeList g.nodes ⟨lbl, idv⟩ idv (scalarProps obj)
  exact mergeNodeList_idem g.nodes ⟨lbl, idv⟩ idv (scalarProps obj)

theorem foldl_acc_const {α β : Type} (l : List β) (g : α) :
    l.foldl (fun acc _ => acc) g = g := by
  induction l generalizing g with
  | nil => rfl
  | cons b t ih => rw [List.foldl_cons]; exact ih g

theorem optFold_nodes (refs : List JValue) (o : Option JValue) (g : Graph) :
    (refs.foldl (fun gacc ref => match o with
      | none => gacc
      | some sid => createRelationship gacc sid ref "REFERENCES") g).nodes
      = g.nodes := by
  cases o with
  | none =>
    show (refs.foldl (fun gacc _ => gacc) g).nodes = g.nodes
    rw [foldl_acc_const]
  | some sid =>
    show (refs.foldl (fun gacc ref => createRelationship gacc sid ref "REFERENCES") g).nodes
      = g.nodes
    exact foldCrel_nodes refs sid "REFERENCES" g

theorem optFold_idem (refs : List JValue) (o : Option JValue) (g : Graph) :
    refs.foldl (fun gacc ref => match o with
      | none => gacc
      | some sid => createRelationship gacc sid ref "REFERENCES")
      (refs.foldl (fun gacc ref => match o with
        | none => gacc
        | some sid => createRelationship gacc sid ref "REFERENCES") g)
    = refs.foldl (fun gacc ref => match o with
      | none => gacc
      | some sid => createRelationship gacc sid ref "REFERENCES") g := by
  cases o with
  | none =>
    show refs.foldl (fun gacc _ => gacc) (refs.foldl (fun gacc _ => gacc) g)
      = refs.foldl (fun gacc _ => gacc) g
    rw [foldl_acc_const, foldl_acc_const]
  | some sid =>
    show refs.foldl (fun gacc ref => createRelationship gacc sid ref "REFERENCES")
        (refs.foldl (fun gacc ref => createRelationship gacc sid ref "REFERENCES") g)
      = refs.foldl (fun gacc ref => createRelationship gacc sid ref "REFERENCES") g
    apply foldCrel_id_of_present
    intro ref hr p hp
    have hnodes := foldCrel_nodes refs sid "REFERENCES" g
    rw [hnodes] at hp
    exact foldCrel_present_all refs sid "REFERENCES" g ref hr p hp

theorem refsStep_none (g : Graph) (obj : Record)
    (h : lookupDict obj "object_refs" = none) : refsStep g obj = (g, none) := by
  unfold refsStep
  rw [h]

theorem refsStep_err (g : Graph) (obj : Record) (v : JValue) (e : String)
    (h : lookupDict obj "object_refs" = some v) (h2 : toIterList v = .error e) :
    refsStep g obj = (g, some e) := by
  simp only [refsStep, h, h2]

theorem refsStep_ok (g : Graph) (obj : Record) (v : JValue) (refs : List JValue)
    (h : lookupDict obj "object_refs" = some v) (h2 : toIterList v = .ok refs) :
    refsStep g obj = (refs.foldl (fun gacc ref => match lookupDict obj "id" with
      | none => gacc
      | some sid => createRelationship gacc sid ref "REFERENCES") g, none) := by
  simp only [refsStep, h, h2]

theorem refsStep_fst_nodes (g : Graph) (obj : Record) :
    (refsStep g obj).1.nodes = g.nodes := by
  cases href : lookupDict obj "object_refs" with
  | none => rw [refsStep_none g obj href]
  | some v =>
    cases hit : toIterList v with
    | error e => rw [refsStep_err g obj v e href hit]
    | ok refs =>
      rw [refsStep_ok g obj v refs href hit]
      exact optFold_nodes refs (lookupDict obj "id") g

theorem refsStep_idem (g : Graph) (obj : Record) :
    refsStep (refsStep g obj).1 obj = refsStep g obj := by
  cases href : lookupDict obj "object_refs" with
  | none =>
    rw [refsStep_none g obj href, refsStep_none _ obj href]
  | some v =>
    cases hit : toIterList v with
    | error e =>
      rw [refsStep_err g obj v e href hit, refsStep_err _ obj v e href hit]
    | ok refs =>
      rw [refsStep_ok g obj v refs href hit, refsStep_ok _ obj v refs href hit]
      rw [Prod.mk.injEq]
      exact ⟨optFold_idem refs (lookupDict obj "id") g, rfl⟩

theorem scalarProps_id_cases (obj : Record) (ridv : JValue)
    (hid : lookupDict obj "id" = some ridv) :
    scalarProps obj "id" = none ∨ scalarProps obj "id" = some ridv := by
  unfold scalarProps
  rw [hid]
  cases h : isScalar ridv
  · left; simp [h]
  · right; simp [h]

theorem relStep_errEq (g : Graph) (obj : Record) (e : String)
    (h : relTypeUpper obj = .error e) : relStep g obj = (g, some e) := by
  unfold relStep
  rw [h]

theorem relStep_noSrc (g : Graph) (obj : Record) (rt : String)
    (hrt : relTypeUpper obj = .ok rt)
    (hsv : lookupDict obj "source_ref" = none) : relStep g obj = (g, none) := by
  simp only [relStep, hrt, hsv]

theorem relStep_noTgt (g : Graph) (obj : Record) (rt : String) (sv : JValue)
    (hrt : relTypeUpper obj = .ok rt)
    (hsv : lookupDict obj "source_ref" = some sv)
    (htv : lookupDict obj "target_ref" = none) : relStep g obj = (g, none) := by
  simp only [relStep, hrt, hsv, htv]

theorem relStep_falsy (g : Graph) (obj : Record) (rt : String) (sv tv : JValue)
    (hrt : relTypeUpper obj = .ok rt)
    (hsv : lookupDict obj "source_ref" = some sv)
    (htv : lookupDict obj "target_ref" = some tv)
    (htr : (truthy sv && truthy tv) = false) : relStep g obj = (g, none) := by
  simp [relStep, hrt, hsv, htv, htr]

theorem relStep_relIdNone (g : Graph) (obj : Record) (rt : String) (sv tv : JValue)
    (hrt : relTypeUpper obj = .ok rt)
    (hsv : lookupDict obj "source_ref" = some sv)
    (htv : lookupDict obj "target_ref" = some tv)
    (htr : (truthy sv && truthy tv) = true)
    (hid : lookupDict obj "id" = none) : relStep g obj = (g, none) := by
  simp [relStep, hrt, hsv, htv, htr, hid, createStixRelationship]

theorem relStep_run (g : Graph) (obj : Record) (rt : String) (sv tv ridv : JValue)
    (hrt : relTypeUpper obj = .ok rt)
    (hsv : lookupDict obj "source_ref" = some sv)
    (htv : lookupDict obj "target_ref" = some tv)
    (htr : (truthy sv && truthy tv) = true)
    (hid : lookupDict obj "id" = some ridv) :
    relStep g obj = (Graph.mk g.nodes ((pairsOf g.nodes sv tv).foldl
      (fun es p => mergeStixEdgeList es p.1 p.2 (sanitizeRelType rt) ridv (scalarProps obj))
      g.edges), none) := by
  simp [relStep, hrt, hsv, htv, htr, hid, createStixRelationship_some]

theorem relStep_idem (g : Graph) (obj : Record) :
    relStep (relStep g obj).1 obj = relStep g obj := by
  cases hrt : relTypeUpper obj with
  | error e => rw [relStep_errEq g obj e hrt, relStep_errEq _ obj e hrt]
  | ok rt =>
    cases hsv : lookupDict obj "source_ref" with
    | none => rw [relStep_noSrc g obj rt hrt hsv, relStep_noSrc _ obj rt hrt hsv]
    | some sv =>
      cases htv : lookupDict obj "target_ref" with
      | none => rw [relStep_noTgt g obj rt sv hrt hsv htv, relStep_noTgt _ obj rt sv hrt hsv htv]
      | some tv =>
        cases htr : (truthy sv && truthy tv) with
        | false =>
          rw [relStep_falsy g obj rt sv tv hrt hsv htv htr,
            relStep_falsy _ obj rt sv tv hrt hsv htv htr]
        | true =>
          cases hid : lookupDict obj "id" with
          | none =>
            rw [relStep_relIdNone g obj rt sv tv hrt hsv htv htr hid,
              relStep_relIdNone _ obj rt sv tv hrt hsv htv htr hid]
          | some ridv =>
            have hp := scalarProps_id_cases obj ridv hid
            rw [relStep_run g obj rt sv tv ridv hrt hsv htv htr hid,
              relStep_run _ obj rt sv tv ridv hrt hsv htv htr hid]
            rw [Prod.mk.injEq]
            refine ⟨?_, rfl⟩
            show Graph.mk _ _ = _
            congr 1
            exact foldStix_id_of_settled _ _ _ _ _ (foldStix_settled_all _ _ _ _ _ hp)

theorem loadStixObjectBody_rel (g : Graph) (obj : Record)
    (hrel : lookupDict obj "type" = some (JValue.str "relationship")) :
    loadStixObjectBody g obj = relStep g obj := by
  unfold loadStixObjectBody nodeStep
  rw [if_pos hrel]
  show (if lookupDict obj "type" = some (JValue.str "report") ∧ hasKey obj "object_refs" = true
      then refsStep g obj
      else if lookupDict obj "type" = some (JValue.str "relationship") then relStep g obj
      else (g, none)) = relStep g obj
  have hrep : ¬ (lookupDict obj "type" = some (JValue.str "report")
      ∧ hasKey obj "object_refs" = true) := by
    intro hc
    have hcontra := hrel.symm.trans hc.1
    simp at hcontra
  rw [if_neg hrep, if_pos hrel]

theorem loadStixObjectBody_node_err (g : Graph) (obj : Record) (e : String)
    (hrel : ¬ lookupDict obj "type" = some (JValue.str "relationship"))
    (hcn : createNode g obj = .error e) :
    loadStixObjectBody g obj = (g, some e) := by
  unfold loadStixObjectBody nodeStep
  rw [if_neg hrel, hcn]

theorem loadStixObjectBody_report (g : Graph) (obj : Record) (g1 : Graph)
    (hrel : ¬ lookupDict obj "type" = some (JValue.str "relationship"))
    (hcn : createNode g obj = .ok g1)
    (hrep : lookupDict obj "type" = some (JValue.str "report")
      ∧ hasKey obj "object_refs" = true) :
    loadStixObjectBody g obj = refsStep g1 obj := by
  unfold loadStixObjectBody nodeStep
  rw [if_neg hrel, hcn]
  show (if lookupDict obj "type" = some (JValue.str "report") ∧ hasKey obj "object_refs" = true
      then refsStep g1 obj
      else if lookupDict obj "type" = some (JValue.str "relationship") then relStep g1 obj
      else (g1, none)) = refsStep g1 obj
  rw [if_pos hrep]

theorem loadStixObjectBody_plain (g : Graph) (obj : Record) (g1 : Graph)
    (hrel : ¬ lookupDict obj "type" = some (JValue.str "relationship"))
    (hcn : createNode g obj = .ok g1)
    (hrep : ¬ (lookupDict obj "type" = some (JValue.str "report")
      ∧ hasKey obj "object_refs" = true)) :
    loadStixObjectBody g obj = (g1, none) := by
  unfold loadStixObjectBody nodeStep
  rw [if_neg hrel, hcn]
  show (if lookupDict obj "type" = some (JValue.str "report") ∧ hasKey obj "object_refs" = true
      then refsStep g1 obj
      else if lookupDict obj "type" = some (JValue.str "relationship") then relStep g1 obj
      else (g1, none)) = (g1, none)
  rw [if_neg hrep, if_neg hrel]

theorem loadStixObject_idem (g : Graph) (obj : Record) :
    loadStixObject (loadStixObject g obj) obj = loadStixObject g obj := by
  unfold loadStixObject
  by_cases hrel : lookupDict obj "type" = some (JValue.str "relationship")
  · rw [loadStixObjectBody_rel g obj hrel, loadStixObjectBody_rel _ obj hrel]
    exact congrArg Prod.fst (relStep_idem g obj)
  · cases hcn : createNode g obj with
    | error e =>
      rw [loadStixObjectBody_node_err g obj e hrel hcn]
      show (loadStixObjectBody g obj).1 = g
      rw [loadStixObjectBody_node_err g obj e hrel hcn]
    | ok g1 =>
      by_cases hrep : lookupDict obj "type" = some (JValue.str "report")
          ∧ hasKey obj "object_refs" = true
      · rw [loadStixObjectBody_report g obj g1 hrel hcn hrep]
        have hnodes : (refsStep g1 obj).1.nodes = g1.nodes := refsStep_fst_nodes g1 obj
        have hcn2 : createNode (refsStep g1 obj).1 obj = .ok (refsStep g1 obj).1 :=
          createNode_stable g obj g1 (refsStep g1 obj).1 hcn hnodes
        rw [loadStixObjectBody_report _ obj (refsStep g1 obj).1 hrel hcn2 hrep]
        exact congrArg Prod.fst (refsStep_idem g1 obj)
      · rw [loadStixObjectBody_plain g obj g1 hrel hcn hrep]
        have hcn2 : createNode g1 obj = .ok g1 :=
          createNode_stable g obj g1 g1 hcn rfl
        rw [loadStixObjectBody_plain g1 obj g1 hrel hcn2 hrep]

/-! ### Assembled helper lemmas for the claims -/

theorem applyTimes_eq_loadStixObject (obj : Record) :
    ∀ (n : Nat) (g : Graph), 1 ≤ n → applyTimes obj n g = loadStixObject g obj := by
  intro n
  induction n with
  | zero => intro g h; cases h
  | succ m ih =>
    intro g _
    show applyTimes obj m (loadStixObject g obj) = loadStixObject g obj
    cases Nat.eq_zero_or_pos m with
    | inl h0 => subst h0; rfl
    | inr hpos => rw [ih (loadStixObject g obj) hpos, loadStixObject_idem]

theorem flatMap_singleton_map {α β : Type} (l : List α) (f : α → β) :
    l.flatMap (fun x => [f x]) = l.map f := by
  induction l with
  | nil => rfl
  | cons a t ih => simp [List.flatMap_cons, ih]

theorem mergeNodeList_any_key (ns : List (NodeKey × Props)) (key : NodeKey)
    (idv : JValue) (props : Props) :
    (mergeNodeList ns key idv props).any (fun n => n.1 == key) = true := by
  rw [mergeNodeList_eq]
  by_cases h : ns.any (fun n => n.1 == key) = true
  · rw [if_pos h, any_key_map_nodeUpd]
    exact h
  · rw [if_neg h, List.any_append]
    simp

theorem relStep_fst_nodes (g : Graph) (obj : Record) :
    (relStep g obj).1.nodes = g.nodes := by
  cases hrt : relTypeUpper obj with
  | error e => rw [relStep_errEq g obj e hrt]
  | ok rt =>
    cases hsv : lookupDict obj "source_ref" with
    | none => rw [relStep_noSrc g obj rt hrt hsv]
    | some sv =>
      cases htv : lookupDict obj "target_ref" with
      | none => rw [relStep_noTgt g obj rt sv hrt hsv htv]
      | some tv =>
        cases htr : (truthy sv && truthy tv) with
        | false => rw [relStep_falsy g obj rt sv tv hrt hsv htv htr]
        | true =>
          cases hid : lookupDict obj "id" with
          | none => rw [relStep_relIdNone g obj rt sv tv hrt hsv htv htr hid]
          | some ridv => rw [relStep_run g obj rt sv tv ridv hrt hsv htv htr hid]

theorem loadStixObject_nodupKeys (g : Graph) (obj : Record)
    (h : (g.nodes.map (·.1)).Nodup) :
    ((loadStixObject g obj).nodes.map (·.1)).Nodup := by
  unfold loadStixObject
  by_cases hrel : lookupDict obj "type" = some (JValue.str "relationship")
  · rw [loadStixObjectBody_rel g obj hrel, relStep_fst_nodes]
    exact h
  · cases hcn : createNode g obj with
    | error e =>
      rw [loadStixObjectBody_node_err g obj e hrel hcn]
      exact h
    | ok g1 =>
      obtain ⟨lbl, idv, _, _, hg1⟩ := createNode_ok_elim g obj g1 hcn
      have h1 : (g1.nodes.map (·.1)).Nodup := by
        rw [hg1]
        exact mergeNodeList_nodupKeys g.nodes ⟨lbl, idv⟩ idv (scalarProps obj) h
      by_cases hrep : lookupDict obj "type" = some (JValue.str "report")
          ∧ hasKey obj "object_refs" = true
      · rw [loadStixObjectBody_report g obj g1 hrel hcn hrep, refsStep_fst_nodes]
        exact h1
      · rw [loadStixObjectBody_plain g obj g1 hrel hcn hrep]
        exact h1

theorem processAll_nodupKeys (recs : List Record) (g : Graph)
    (h : (g.nodes.map (·.1)).Nodup) :
    ((processAll recs g).nodes.map (·.1)).Nodup := by
  induction recs generalizing g with
  | nil => exact h
  | cons r rs ih =>
    show ((processAll rs (loadStixObject g r)).nodes.map (·.1)).Nodup
    exact ih (loadStixObject g r) (loadStixObject_nodupKeys g r h)

theorem fetchLoop_stop (feed : Option String → Page) (n : Nat) (c : Option String)
    (h : (feed c).more = false) :
    fetchLoop feed (n + 1) c = ((feed c).objects, 1) := by
  simp only [fetchLoop, h]

theorem fetchLoop_stop_noTok (feed : Option String → Page) (n : Nat)
    (c : Option String) (h : (feed c).next = none) :
    fetchLoop feed (n + 1) c = ((feed c).objects, 1) := by
  cases hm : (feed c).more
  · simp only [fetchLoop, hm]
  · simp only [fetchLoop, hm, h]

theorem fetchLoop_go (feed : Option String → Page) (n : Nat) (c : Option String)
    (t : String) (hm : (feed c).more = true) (hn : (feed c).next = some t)
    (ht : ¬ t = "") :
    fetchLoop feed (n + 1) c
      = ((feed c).objects ++ (fetchLoop feed n (some t)).1,
         (fetchLoop feed n (some t)).2 + 1) := by
  simp only [fetchLoop, hm, hn, ne_eq, ht, not_false_eq_true, if_true]

/-! ### The claims -/

/-- C1: for every record, applying that record's full sequence of
mutation intents (node upsert plus all derived edge upserts, exactly as
`load_stix_object` executes them) N times, for any N ≥ 1, to any graph
state produces the same graph state as applying it once: no duplicate
vertices, no duplicate edges, and identical merged properties. -/
theorem claim_C1 (obj : Record) (g : Graph) (n : Nat) (h : 1 ≤ n) :
    applyTimes obj n g = loadStixObject g obj :=
  applyTimes_eq_loadStixObject obj n g h

theorem claim_C1_witness :
    1 ≤ 3 ∧ applyTimes recReport 3 emptyGraph = loadStixObject emptyGraph recReport :=
  ⟨by decide, claim_C1 recReport emptyGraph 3 (by decide)⟩

/-- C2 counterexample: a report record with one reference leads to two
separate `execute_write` transactions (node upsert plus reference-edge
upsert), not one; and for `recBadRefs` the node transaction's effect
persists (one node in the final state) even though the record's
processing then fails — the record's intents do not succeed or fail
together. -/
theorem claim_C2_counterexample :
    (intentsOf recReportOneRef).length = 2 ∧
    (loadStixObjectBody emptyGraph recBadRefs).2 = some "TypeError: not iterable" ∧
    (loadStixObjectBody emptyGraph recBadRefs).1.nodes.length = 1 :=
  ⟨rfl, rfl, rfl⟩

/-- C2 amended: each mutation intent runs in its own store transaction
(one per `execute_write` call), so a record's intents do not succeed or
fail together: once the node upsert has committed (succeeded), the node
state of the record's final graph is exactly the node upsert's result,
whether or not any later edge step of the same record fails; distinct
records remain independent. -/
theorem claim_C2_amended (obj : Record) (g g₁ : Graph)
    (hrel : ¬ lookupDict obj "type" = some (JValue.str "relationship"))
    (hcn : createNode g obj = .ok g₁) :
    (loadStixObjectBody g obj).1.nodes = g₁.nodes := by
  by_cases hrep : lookupDict obj "type" = some (JValue.str "report")
      ∧ hasKey obj "object_refs" = true
  · rw [loadStixObjectBody_report g obj g₁ hrel hcn hrep]
    exact refsStep_fst_nodes g₁ obj
  · rw [loadStixObjectBody_plain g obj g₁ hrel hcn hrep]

theorem claim_C2_amended_witness :
    (¬ lookupDict recBadRefs "type" = some (JValue.str "relationship")) ∧
    createNode emptyGraph recBadRefs = .ok gBadNode ∧
    (loadStixObjectBody emptyGraph recBadRefs).1.nodes = gBadNode.nodes :=
  ⟨by decide, rfl, claim_C2_amended recBadRefs emptyGraph gBadNode (by decide) rfl⟩

/-- C3 counterexample: `recNote` is a non-relationship record with a
non-empty `object_refs` list, yet processing it emits only the node
upsert — no REFERENCES edge-upsert intent — because the code derives
reference edges only for records whose type tag equals `"report"`. -/
theorem claim_C3_counterexample :
    lookupDict recNote "type" = some (JValue.str "note") ∧
    (¬ lookupDict recNote "type" = some (JValue.str "relationship")) ∧
    lookupDict recNote "object_refs" = some (JValue.list [JValue.str "indicator--i1"]) ∧
    intentsOf recNote = [Intent.nodeUpsert recNote] :=
  ⟨rfl, by decide, rfl, rfl⟩

/-- C3 amended: only a record whose type tag equals `"report"` (and which
carries an `object_refs` key and an `id`) emits one REFERENCES
edge-upsert intent per referenced id, in addition to its node upsert. -/
theorem claim_C3_amended (obj : Record) (refs : List JValue) (idv : JValue)
    (hty : lookupDict obj "type" = some (JValue.str "report"))
    (href : lookupDict obj "object_refs" = some (JValue.list refs))
    (hid : lookupDict obj "id" = some idv) :
    intentsOf obj = Intent.nodeUpsert obj
      :: refs.map (fun r => Intent.refEdge idv r "REFERENCES") := by
  have hrel : ¬ lookupDict obj "type" = some (JValue.str "relationship") := by
    rw [hty]
    simp
  have hnr : nodeRaises obj = false := by
    unfold nodeRaises nodeLabel
    rw [hty, hid]
  have hhk : hasKey obj "object_refs" = true := by
    unfold hasKey
    rw [href]
    rfl
  unfold intentsOf
  rw [if_neg hrel, if_neg (by rw [hnr]; exact Bool.false_ne_true)]
  congr 1
  unfold edgeIntentsOf
  rw [if_pos ⟨hty, hhk⟩, href]
  show (match toIterList (JValue.list refs) with
    | .error _ => []
    | .ok refs => refs.flatMap (fun ref =>
        match lookupDict obj "id" with
        | none => []
        | some sid => [Intent.refEdge sid ref "REFERENCES"])) = _
  show refs.flatMap (fun ref =>
      match lookupDict obj "id" with
      | none => []
      | some sid => [Intent.refEdge sid ref "REFERENCES"]) = _
  have hfun : (fun (ref : JValue) => match lookupDict obj "id" with
      | none => ([] : List Intent)
      | some sid => [Intent.refEdge sid ref "REFERENCES"])
    = fun ref => [Intent.refEdge idv ref "REFERENCES"] := by
    funext ref
    rw [hid]
  rw [hfun, flatMap_singleton_map]

theorem claim_C3_amended_witness :
    lookupDict recReport "type" = some (JValue.str "report") ∧
    lookupDict recReport "object_refs"
      = some (JValue.list [JValue.str "indicator--i1", JValue.str "malware--m1"]) ∧
    lookupDict recReport "id" = some (JValue.str "report--r1") ∧
    intentsOf recReport = Intent.nodeUpsert recReport
      :: [JValue.str "indicator--i1", JValue.str "malware--m1"].map
          (fun r => Intent.refEdge (JValue.str "report--r1") r "REFERENCES") :=
  ⟨rfl, rfl, rfl, claim_C3_amended recReport
    [JValue.str "indicator--i1", JValue.str "malware--m1"]
    (JValue.str "report--r1") rfl rfl rfl⟩

/-- C4 counterexample: the sanitization applied to node labels
(`replace('-','_')` only) and the one applied to relationship types
(`replace('-','_').replace(' ','_')`) are different functions — they
disagree on any string containing a space. -/
theorem claim_C4_counterexample :
    sanitizeLabel "a b" ≠ sanitizeRelType "a b" ∧
    sanitizeLabel "a b" = "a b" ∧ sanitizeRelType "a b" = "a_b" :=
  ⟨by decide, by decide, by decide⟩

/-- C4 amended: node-label sanitization replaces only hyphens while
edge-type sanitization additionally replaces spaces; the two functions
agree exactly on inputs containing no space character. -/
theorem claim_C4_amended (s : String) (h : ∀ c ∈ s.data, ¬ c = ' ') :
    sanitizeLabel s = sanitizeRelType s := by
  unfold sanitizeLabel sanitizeRelType
  congr 1
  symm
  apply map_id_of_ptwise_id
  intro x hx
  rw [List.mem_map] at hx
  obtain ⟨c, hc, rfl⟩ := hx
  by_cases hd : c = '-'
  · simp [hd]
  · simp [hd, h c hc]

theorem claim_C4_amended_witness :
    (∀ c ∈ "related-to".data, ¬ c = ' ') ∧
    sanitizeLabel "related-to" = sanitizeRelType "related-to" :=
  ⟨by decide, claim_C4_amended "related-to" (by decide)⟩

/-- C6: a reference-edge upsert whose source or target id matches no
vertex leaves the graph unchanged (and raises no error — the function is
total); once vertices with both ids exist, executing the upsert makes
an edge of the (sanitized) type present between them. -/
theorem claim_C6 (g : Graph) (srcId tgtId : JValue) (rt : String) :
    (nodesWithId g.nodes srcId = [] ∨ nodesWithId g.nodes tgtId = [] →
      createRelationship g srcId tgtId rt = g) ∧
    (∀ s t : NodeKey, s ∈ nodesWithId g.nodes srcId → t ∈ nodesWithId g.nodes tgtId →
      refPresent (createRelationship g srcId tgtId rt).edges s t (sanitizeRelType rt)) := by
  constructor
  · intro h
    unfold createRelationship
    have hp : pairsOf g.nodes srcId tgtId = [] := by
      unfold pairsOf
      rcases h with h | h <;> rw [h] <;> simp
    rw [hp]
    show Graph.mk g.nodes g.edges = g
    rfl
  · intro s t hs ht
    have hp : (s, t) ∈ pairsOf g.nodes srcId tgtId := by
      unfold pairsOf
      rw [List.mem_flatMap]
      exact ⟨s, hs, List.mem_map_of_mem _ ht⟩
    unfold createRelationship
    exact foldRef_present_all _ _ _ (s, t) hp

theorem claim_C6_witness :
    nodesWithId gPair.nodes (JValue.str "nope") = [] ∧
    createRelationship gPair (JValue.str "s1") (JValue.str "nope") "REFERENCES" = gPair ∧
    (⟨"indicator", JValue.str "s1"⟩ : NodeKey) ∈ nodesWithId gPair.nodes (JValue.str "s1") ∧
    (⟨"malware", JValue.str "t1"⟩ : NodeKey) ∈ nodesWithId gPair.nodes (JValue.str "t1") ∧
    refPresent (createRelationship gPair (JValue.str "s1") (JValue.str "t1")
        "REFERENCES").edges
      ⟨"indicator", JValue.str "s1"⟩ ⟨"malware", JValue.str "t1"⟩
      (sanitizeRelType "REFERENCES") :=
  ⟨rfl,
   (claim_C6 gPair (JValue.str "s1") (JValue.str "nope") "REFERENCES").1 (Or.inr rfl),
   by decide, by decide,
   (claim_C6 gPair (JValue.str "s1") (JValue.str "t1") "REFERENCES").2
     ⟨"indicator", JValue.str "s1"⟩ ⟨"malware", JValue.str "t1"⟩
     (by decide) (by decide)⟩

/-- C8 counterexample: upserting the same id `"x"` first with type tag
`indicator` and then with type tag `malware` creates two distinct
vertices carrying that id (Neo4j MERGE keys the vertex by label and id
together), contradicting "at most one vertex per record id". -/
theorem claim_C8_counterexample :
    (processAll [recIndX, recMalX] emptyGraph).nodes.countP
        (fun n => n.1.id == JValue.str "x") = 2 ∧
    (processAll [recIndX, recMalX] emptyGraph).nodes.length = 2 :=
  ⟨rfl, rfl⟩

/-- C8 amended: after any sequence of record processings starting from
the empty graph, at most one vertex exists per (sanitized label, id)
MERGE key: repeated upserts with the same id and the same type tag merge
properties onto the existing vertex, while the same id under a different
type tag creates a separate vertex. -/
theorem claim_C8_amended (recs : List Record) :
    ((processAll recs emptyGraph).nodes.map (·.1)).Nodup :=
  processAll_nodupKeys recs emptyGraph List.nodup_nil

/-- C9: a record mapping lacking a `type` key entirely still gets a node
upsert intent (first in its intent list), its node transaction succeeds,
its vertex is labeled with the fixed default `"STIXObject"` (which
sanitization leaves unchanged), and after processing the graph contains
a vertex keyed `("STIXObject", id)`. -/
theorem claim_C9 (obj : Record) (g : Graph) (idv : JValue)
    (hty : lookupDict obj "type" = none) (hid : lookupDict obj "id" = some idv) :
    (intentsOf obj).head? = some (Intent.nodeUpsert obj) ∧
    createNode g obj
      = .ok (mergeNode g ⟨sanitizeLabel "STIXObject", idv⟩ idv (scalarProps obj)) ∧
    sanitizeLabel "STIXObject" = "STIXObject" ∧
    (loadStixObject g obj).nodes.any
      (fun n => n.1 == (⟨sanitizeLabel "STIXObject", idv⟩ : NodeKey)) = true := by
  have hrel : ¬ lookupDict obj "type" = some (JValue.str "relationship") := by
    rw [hty]
    simp
  have hrep : ¬ (lookupDict obj "type" = some (JValue.str "report")
      ∧ hasKey obj "object_refs" = true) := by
    intro hc
    rw [hty] at hc
    cases hc.1
  have hcn : createNode g obj
      = .ok (mergeNode g ⟨sanitizeLabel "STIXObject", idv⟩ idv (scalarProps obj)) := by
    unfold createNode nodeLabel
    rw [hty, hid]
  refine ⟨?_, hcn, by decide, ?_⟩
  · unfold intentsOf
    rw [if_neg hrel]
    rfl
  · unfold loadStixObject
    rw [loadStixObjectBody_plain g obj _ hrel hcn hrep]
    exact mergeNodeList_any_key g.nodes ⟨sanitizeLabel "STIXObject", idv⟩ idv
      (scalarProps obj)

theorem claim_C9_witness :
    lookupDict recOnlyId "type" = none ∧
    lookupDict recOnlyId "id" = some (JValue.str "q1") ∧
    ((intentsOf recOnlyId).head? = some (Intent.nodeUpsert recOnlyId) ∧
      createNode emptyGraph recOnlyId
        = .ok (mergeNode emptyGraph ⟨sanitizeLabel "STIXObject", JValue.str "q1"⟩
            (JValue.str "q1") (scalarProps recOnlyId)) ∧
      sanitizeLabel "STIXObject" = "STIXObject" ∧
      (loadStixObject emptyGraph recOnlyId).nodes.any
        (fun n => n.1 == (⟨sanitizeLabel "STIXObject", JValue.str "q1"⟩ : NodeKey))
          = true) :=
  ⟨rfl, rfl, claim_C9 recOnlyId emptyGraph (JValue.str "q1") rfl rfl⟩

/-- C10: processing a record never propagates an exception: processing a
batch always continues with the next record, and for the concrete record
missing the required `id` field the node upsert itself raises `KeyError`
inside `load_stix_object`, which catches it and returns the graph
unchanged. -/
theorem claim_C10 :
    (∀ (g : Graph) (rec : Record) (rest : List Record),
      processAll (rec :: rest) g = processAll rest (loadStixObject g rec)) ∧
    (∀ g : Graph, (loadStixObjectBody g recNoId).2 = some "KeyError: id" ∧
      loadStixObject g recNoId = g) := by
  refine ⟨fun g rec rest => rfl, fun g => ?_⟩
  have hrel : ¬ lookupDict recNoId "type" = some (JValue.str "relationship") := by
    decide
  have hcn : createNode g recNoId = .error "KeyError: id" := rfl
  have hb := loadStixObjectBody_node_err g recNoId "KeyError: id" hrel hcn
  constructor
  · rw [hb]
  · unfold loadStixObject
    rw [hb]

/-- C5: the fetcher requests pages while `more` is true and a non-empty
token is supplied, stops when `more` is false or the token is absent,
and returns the concatenation of all pages' record lists in page order;
for a 3-page feed (`more:true,next:"a"`, then `more:true,next:"b"`, then
`more:false`) it returns all records of the three pages in page order and
issues exactly 3 requests (for every fuel bound ≥ 3, covering the
unbounded Python loop). -/
theorem claim_C5 (feed : Option String → Page) (fuel : Nat) (p1 p2 p3 : Page)
    (h1 : feed none = p1) (hm1 : p1.more = true) (hn1 : p1.next = some "a")
    (h2 : feed (some "a") = p2) (hm2 : p2.more = true) (hn2 : p2.next = some "b")
    (h3 : feed (some "b") = p3) (hm3 : p3.more = false)
    (hfuel : 3 ≤ fuel) :
    fetchStixObjects feed fuel = (p1.objects ++ p2.objects ++ p3.objects, 3) ∧
    (∀ (f : Option String → Page) (c : Option String) (m : Nat),
      (f c).more = false → fetchLoop f (m + 1) c = ((f c).objects, 1)) ∧
    (∀ (f : Option String → Page) (c : Option String) (m : Nat),
      (f c).next = none → fetchLoop f (m + 1) c = ((f c).objects, 1)) := by
  refine ⟨?_, fun f c m h => fetchLoop_stop f m c h,
    fun f c m h => fetchLoop_stop_noTok f m c h⟩
  obtain ⟨k, rfl⟩ : ∃ k, fuel = ((k + 1) + 1) + 1 := ⟨fuel - 3, by omega⟩
  unfold fetchStixObjects
  rw [fetchLoop_go feed ((k + 1) + 1) none "a"
      (by rw [h1]; exact hm1) (by rw [h1]; exact hn1) (by decide),
    fetchLoop_go feed (k + 1) (some "a") "b"
      (by rw [h2]; exact hm2) (by rw [h2]; exact hn2) (by decide),
    fetchLoop_stop feed k (some "b") (by rw [h3]; exact hm3),
    h1, h2, h3]
  rw [List.append_assoc]

theorem claim_C5_witness :
    pageW1.more = true ∧ pageW3.more = false ∧ (3 : Nat) ≤ 5 ∧
    fetchStixObjects feedW 5
      = (pageW1.objects ++ pageW2.objects ++ pageW3.objects, 3) :=
  ⟨rfl, rfl, by decide,
    (claim_C5 feedW 5 pageW1 pageW2 pageW3 rfl rfl rfl rfl rfl rfl rfl rfl
      (by decide)).1⟩

theorem load_relRec (rid : String) (g : Graph) :
    loadStixObject g (relRec rid)
      = Graph.mk g.nodes ((pairsOf g.nodes (JValue.str "s1") (JValue.str "t1")).foldl
          (fun es p => mergeStixEdgeList es p.1 p.2 (sanitizeRelType (pyUpper "uses"))
            (JValue.str rid) (scalarProps (relRec rid))) g.edges) := by
  unfold loadStixObject
  rw [loadStixObjectBody_rel g (relRec rid) rfl,
    relStep_run g (relRec rid) (pyUpper "uses") (JValue.str "s1") (JValue.str "t1")
      (JValue.str rid) rfl rfl rfl (by decide) rfl]

theorem pairsOf_gPair :
    pairsOf gPair.nodes (JValue.str "s1") (JValue.str "t1")
      = [(⟨"indicator", JValue.str "s1"⟩, ⟨"malware", JValue.str "t1"⟩)] := rfl

theorem relRec_props_id (rid : String) :
    scalarProps (relRec rid) "id" = some (JValue.str rid) := rfl

theorem firstEdge_props_id (rid : String) :
    overrideProps (fun k => if k = "id" then some (JValue.str rid) else none)
      (scalarProps (relRec rid)) "id" = some (JValue.str rid) := rfl

/-- C7: relationship-edge uniqueness is keyed by the relationship
record's own id: two relationship records with identical source, target
and relationship type but different ids produce two distinct edges, and
re-processing the same relationship record any number of times leaves
exactly one edge. -/
theorem claim_C7 (id1 id2 : String) (hne : ¬ id1 = id2) :
    (loadStixObject (loadStixObject gPair (relRec id1)) (relRec id2)).edges.length = 2 ∧
    (∀ n : Nat, 1 ≤ n → (applyTimes (relRec id1) n gPair).edges.length = 1) := by
  have hb : (id1 == id2) = false := beq_eq_false_iff_ne.mpr hne
  have h1 : loadStixObject gPair (relRec id1)
      = Graph.mk gPair.nodes [⟨⟨"indicator", JValue.str "s1"⟩, ⟨"malware", JValue.str "t1"⟩,
          sanitizeRelType (pyUpper "uses"),
          overrideProps (fun k => if k = "id" then some (JValue.str id1) else none)
            (scalarProps (relRec id1))⟩] := by
    rw [load_relRec id1 gPair, pairsOf_gPair]
    congr 1
  constructor
  · rw [h1, load_relRec id2]
    show (mergeStixEdgeList
      [⟨⟨"indicator", JValue.str "s1"⟩, ⟨"malware", JValue.str "t1"⟩,
        sanitizeRelType (pyUpper "uses"),
        overrideProps (fun k => if k = "id" then some (JValue.str id1) else none)
          (scalarProps (relRec id1))⟩]
      ⟨"indicator", JValue.str "s1"⟩ ⟨"malware", JValue.str "t1"⟩
      (sanitizeRelType (pyUpper "uses")) (JValue.str id2)
      (scalarProps (relRec id2))).length = 2
    rw [mergeStixEdgeList_eq]
    have hmatch : ([⟨⟨"indicator", JValue.str "s1"⟩, ⟨"malware", JValue.str "t1"⟩,
        sanitizeRelType (pyUpper "uses"),
        overrideProps (fun k => if k = "id" then some (JValue.str id1) else none)
          (scalarProps (relRec id1))⟩] : List Edge).any
        (stixMatch ⟨"indicator", JValue.str "s1"⟩ ⟨"malware", JValue.str "t1"⟩
          (sanitizeRelType (pyUpper "uses")) (JValue.str id2)) = false := by
      simp only [List.any_cons, List.any_nil, Bool.or_false]
      unfold stixMatch
      simp only [beq_self_eq_true, Bool.true_and]
      rw [firstEdge_props_id id1, beq_eq_false_iff_ne]
      simp [hne]
    rw [if_neg (by rw [hmatch]; exact Bool.false_ne_true)]
    rfl
  · intro n hn
    rw [applyTimes_eq_loadStixObject (relRec id1) n gPair hn, h1]
    rfl

theorem claim_C7_witness :
    (¬ "rel--1" = "rel--2") ∧
    (loadStixObject (loadStixObject gPair (relRec "rel--1"))
        (relRec "rel--2")).edges.length = 2 ∧
    (applyTimes (relRec "rel--1") 4 gPair).edges.length = 1 := by
  have h := claim_C7 "rel--1" "rel--2" (by decide)
  exact ⟨by decide, h.1, h.2 4 (by decide)⟩

end TaxiiNeo4j
